import Mathlib

/-!
Verification of the invoice subsystem of the `visual` repository:
the sequence allocator (`get_next_invoice_number`, migration 003),
the invoice-totals trigger (`update_invoice_totals`, migration 005),
the invoice-number trigger (`assign_invoice_number`, migration 004),
the server action `createInvoiceAction` / `validateInvoiceData`
(frontend server actions), the invoice form total computation
(`InvoiceForm`), and the typed update payload `InvoiceUpdate`
(`frontend/src/lib/api-client.ts`).
-/

namespace Visual

/-! ## Sequence allocator (`invoice_sequences`, `get_next_invoice_number`)

The table `invoice_sequences(organization_id, year, last_number)` keyed by
`(organization_id, year)` is modelled as a function from keys to
`Option Nat`, where `none` means the row is absent and `some n` means the
row exists with `last_number = n`. -/

/-- A key of the `invoice_sequences` table: `(organization_id, year)`. -/
abbrev SeqKey := Nat × Nat

/-- The `invoice_sequences` table: `none` = no row for that key,
`some n` = a row with `last_number = n`. -/
abbrev SeqTable := SeqKey → Option Nat

/-- The counter part of `get_next_invoice_number`:
`UPDATE invoice_sequences SET last_number = last_number + 1 … RETURNING`
and, `IF NOT FOUND`, `INSERT … VALUES (org_id, current_year, 1)`.
Returns the allocated number and the updated table. -/
def allocateNumber (t : SeqTable) (k : SeqKey) : Nat × SeqTable :=
  match t k with
  | some n => (n + 1, fun k2 => if k2 = k then some (n + 1) else t k2)
  | none => (1, fun k2 => if k2 = k then some 1 else t k2)

/-- Postgres `LPAD(s, len, fill)`: pad on the left to length `len`;
a string already longer than `len` is truncated to its leftmost
`len` characters. -/
def lpad (s : String) (len : Nat) (fill : Char) : String :=
  if len ≤ s.length then (s.toList.take len).asString
  else (List.replicate (len - s.length) fill).asString ++ s

/-- The `RETURN current_year || '-' || LPAD(next_number::TEXT, 6, '0')`
line of `get_next_invoice_number`. -/
def formatInvoiceNumber (year n : Nat) : String :=
  toString year ++ "-" ++ lpad (toString n) 6 '0'

/-- `get_next_invoice_number(org_id)` for a given current year: allocate
the next counter value for `(org_id, year)` and format it. -/
def get_next_invoice_number (t : SeqTable) (org year : Nat) :
    String × SeqTable :=
  let p := allocateNumber t (org, year)
  (formatInvoiceNumber year p.1, p.2)

/-- Numbers returned by `n` successive allocations for the same key,
in call order, together with the final table. -/
def allocResults (t : SeqTable) (k : SeqKey) : Nat → List Nat × SeqTable
  | 0 => ([], t)
  | n + 1 =>
    let p := allocateNumber t k
    let q := allocResults p.2 k n
    (p.1 :: q.1, q.2)

/-- Replaying a list of allocation requests (arbitrary keys) against the
table; only `get_next_invoice_number` ever touches `invoice_sequences`,
so this is the table's whole reachable behaviour. -/
def runAllocs (t : SeqTable) (ops : List SeqKey) : SeqTable :=
  ops.foldl (fun t2 k => (allocateNumber t2 k).2) t

/-- `last_number` of the row for `k`, reading an absent row as the
0 it would be created from. -/
def lastNumber (t : SeqTable) (k : SeqKey) : Nat :=
  (t k).getD 0

theorem allocateNumber_lastNumber (t : SeqTable) (k : SeqKey) :
    lastNumber (allocateNumber t k).2 k = lastNumber t k + 1 ∧
      (allocateNumber t k).1 = lastNumber t k + 1 := by
  unfold allocateNumber lastNumber
  cases h : t k <;> simp [h]

theorem allocateNumber_other (t : SeqTable) (k k2 : SeqKey) (h : k2 ≠ k) :
    (allocateNumber t k).2 k2 = t k2 := by
  unfold allocateNumber
  cases h2 : t k <;> simp [h2, h]

theorem allocateNumber_ne_none (t : SeqTable) (k : SeqKey) :
    (allocateNumber t k).2 k ≠ none := by
  unfold allocateNumber
  cases h : t k <;> simp [h]

/-- From a row holding `v`, `n` successive allocations return exactly
`v+1, v+2, …, v+n` in order, leaving the row at `v + n`. -/
theorem allocResults_some (k : SeqKey) :
    ∀ (n : Nat) (t : SeqTable) (v : Nat), t k = some v →
      (allocResults t k n).1 = List.range' (v + 1) n ∧
        (allocResults t k n).2 k = some (v + n) := by
  intro n
  induction n with
  | zero => intro t v h; simp [allocResults, h]
  | succ m ih =>
    intro t v h
    have halloc : allocateNumber t k = (v + 1, fun k2 => if k2 = k then some (v + 1) else t k2) := by
      unfold allocateNumber; simp [h]
    have hnext : (allocateNumber t k).2 k = some (v + 1) := by
      rw [halloc]; simp
    obtain ⟨h1, h2⟩ := ih (allocateNumber t k).2 (v + 1) hnext
    constructor
    · show (allocateNumber t k).1 :: (allocResults (allocateNumber t k).2 k m).1 = _
      rw [h1, halloc]
      simp [List.range'_succ]
    · show (allocResults (allocateNumber t k).2 k m).2 k = _
      rw [h2]
      ring_nf

/-- From an absent row, `n` successive allocations return exactly
`1, 2, …, n` in order. -/
theorem allocResults_none (k : SeqKey) (n : Nat) (t : SeqTable)
    (h : t k = none) :
    (allocResults t k n).1 = List.range' 1 n := by
  cases n with
  | zero => simp [allocResults]
  | succ m =>
    have halloc : allocateNumber t k = (1, fun k2 => if k2 = k then some 1 else t k2) := by
      unfold allocateNumber; simp [h]
    have hnext : (allocateNumber t k).2 k = some 1 := by
      rw [halloc]; simp
    obtain ⟨h1, _⟩ := allocResults_some k m (allocateNumber t k).2 1 hnext
    show (allocateNumber t k).1 :: (allocResults (allocateNumber t k).2 k m).1 = _
    rw [h1, halloc]
    simp [List.range'_succ]

theorem lastNumber_allocate (t : SeqTable) (k k' : SeqKey) :
    lastNumber (allocateNumber t k').2 k =
      lastNumber t k + if k = k' then 1 else 0 := by
  by_cases h : k = k'
  · subst h; simpa using (allocateNumber_lastNumber t k).1
  · simp [lastNumber, allocateNumber_other t k' k h, h]

theorem allocate_none_iff (t : SeqTable) (k k' : SeqKey) :
    (allocateNumber t k').2 k = none ↔ (t k = none ∧ k ≠ k') := by
  by_cases h : k = k'
  · subst h; simp [allocateNumber_ne_none]
  · simp [allocateNumber_other t k' k h, h]

/-- Behaviour of the `invoice_sequences` row for `k` over any sequence of
allocations: `last_number` grows by exactly the number of allocations for
`k`, and the row is absent exactly when it started absent and `k` was
never allocated. -/
theorem runAllocs_spec (ops : List SeqKey) :
    ∀ (t : SeqTable) (k : SeqKey),
      lastNumber (runAllocs t ops) k = lastNumber t k + ops.count k ∧
        ((runAllocs t ops) k = none ↔ (t k = none ∧ k ∉ ops)) := by
  induction ops with
  | nil => intro t k; simp [runAllocs]
  | cons k' rest ih =>
    intro t k
    obtain ⟨h1, h2⟩ := ih (allocateNumber t k').2 k
    constructor
    · show lastNumber (runAllocs (allocateNumber t k').2 rest) k = _
      rw [h1, lastNumber_allocate]
      by_cases h : k = k'
      · simp [h, List.count_cons]
        ring
      · simp [h, List.count_cons]
    · show (runAllocs (allocateNumber t k').2 rest) k = none ↔ _
      rw [h2, allocate_none_iff]
      by_cases h : k = k'
      · simp [h, List.mem_cons]
      · simp [h, List.mem_cons]

/-- C1: a successful allocation for `(organization_id, year)` increments
the stored counter by one and returns the new value: with no counter row
it creates the row and returns 1, with a row at `last_number = n` it
returns `n + 1`; `N` successive allocations from a fresh row return
exactly `1, 2, …, N` in order. -/
theorem claim_C1_allocate_increments (t : SeqTable) (org year n N : Nat) :
    (t (org, year) = none →
      (allocateNumber t (org, year)).1 = 1 ∧
        (allocateNumber t (org, year)).2 (org, year) = some 1 ∧
        (allocResults t (org, year) N).1 = List.range' 1 N) ∧
    (t (org, year) = some n →
      (allocateNumber t (org, year)).1 = n + 1 ∧
        (allocateNumber t (org, year)).2 (org, year) = some (n + 1)) := by
  constructor
  · intro h
    refine ⟨?_, ?_, allocResults_none (org, year) N t h⟩ <;>
      · unfold allocateNumber; simp [h]
  · intro h
    constructor <;> · unfold allocateNumber; simp [h]

theorem claim_C1_witness :
    (allocateNumber (fun _ => none) (1, 2025)).1 = 1 ∧
      (allocResults (fun _ => none) (1, 2025) 3).1 = [1, 2, 3] := by
  obtain ⟨h1, _, h3⟩ :=
    (claim_C1_allocate_increments (fun _ => none) 1 2025 0 3).1 rfl
  exact ⟨h1, by rw [h3]; decide⟩

/-- C4 fails on the code: the first allocation for organization 1 in year
2025 returns `"2025-000001"` (the SQL pads with `LPAD(…, 6, '0')`, six
digits), not `"2025-0001"` as the claim states. -/
theorem claim_C4_counterexample :
    (get_next_invoice_number (fun _ => none) 1 2025).1 = "2025-000001" ∧
      (get_next_invoice_number (fun _ => none) 1 2025).1 ≠ "2025-0001" := by
  constructor <;> decide

/-- C4 amended: every successful allocation returns
`{year} ++ "-" ++ LPAD(number, 6, '0')` — the sequence number zero-padded
to six digits (values beyond 999999 are truncated to their leftmost six
digits by `LPAD`); the first allocation for org 1 in year 2025 returns
`"2025-000001"`. -/
theorem claim_C4_format (t : SeqTable) (org year n : Nat) :
    (t (org, year) = none →
      (get_next_invoice_number t org year).1 =
        toString year ++ "-" ++ "000001") ∧
    (t (org, year) = some n →
      (get_next_invoice_number t org year).1 =
        toString year ++ "-" ++ lpad (toString (n + 1)) 6 '0') := by
  constructor
  · intro h
    show formatInvoiceNumber year (allocateNumber t (org, year)).1 = _
    unfold allocateNumber
    simp only [h]
    show toString year ++ "-" ++ lpad (toString 1) 6 '0' = _
    congr 1
  · intro h
    show formatInvoiceNumber year (allocateNumber t (org, year)).1 = _
    unfold allocateNumber
    simp only [h]
    rfl

theorem claim_C4_format_witness :
    (get_next_invoice_number (fun _ => none) 1 2025).1 =
      toString 2025 ++ "-" ++ "000001" :=
  (claim_C4_format (fun _ => none) 1 2025 0).1 rfl

/-- C8: across any sequence of operations (only allocations ever touch
`invoice_sequences`), the `last_number` for a key never decreases, grows
by exactly one per successful allocation of that key, is created lazily
on the first allocation of the key, and the row is never deleted. -/
theorem claim_C8_sequence_row_lifecycle (t : SeqTable) (ops : List SeqKey)
    (k : SeqKey) :
    lastNumber t k ≤ lastNumber (runAllocs t ops) k ∧
      lastNumber (runAllocs t ops) k = lastNumber t k + ops.count k ∧
      (t k ≠ none → (runAllocs t ops) k ≠ none) ∧
      ((runAllocs t ops) k = none ↔ (t k = none ∧ k ∉ ops)) := by
  obtain ⟨h1, h2⟩ := runAllocs_spec ops t k
  refine ⟨?_, h1, ?_, h2⟩
  · rw [h1]; exact Nat.le_add_right _ _
  · intro hne hcontra
    exact hne (h2.mp hcontra).1

theorem claim_C8_witness :
    lastNumber (runAllocs (fun _ => none) [(1, 2025), (1, 2025), (2, 2025)])
        (1, 2025) = 2 ∧
      (runAllocs (fun _ => none) [(1, 2025), (1, 2025), (2, 2025)])
        (1, 2025) ≠ none := by
  obtain ⟨_, h2, _, h4⟩ :=
    claim_C8_sequence_row_lifecycle (fun _ => none)
      [(1, 2025), (1, 2025), (2, 2025)] (1, 2025)
  refine ⟨by rw [h2]; decide, ?_⟩
  intro hcontra
  have := (h4.mp hcontra).2
  simp at this

/-! ## Fixed-point rounding

`NUMERIC(10,2)` columns store values rounded to 2 decimal places;
Postgres rounds half away from zero. The JS `toFixed(2)` in the form and
server action is modelled the same way over exact decimal arithmetic. -/

/-- Round half away from zero to an integer. -/
def roundHalfAway (q : ℚ) : ℤ :=
  if 0 ≤ q then ⌊q + 1 / 2⌋ else -⌊-q + 1 / 2⌋

/-- Round to 2 decimal places, half away from zero. -/
def round2 (q : ℚ) : ℚ :=
  (roundHalfAway (q * 100) : ℚ) / 100

/-- A value representable with 2 decimal places
(what a `NUMERIC(10,2)` column holds). -/
def twoDp (q : ℚ) : Prop :=
  ∃ n : ℤ, q = (n : ℚ) / 100

theorem roundHalfAway_intCast (z : ℤ) : roundHalfAway (z : ℚ) = z := by
  unfold roundHalfAway
  split_ifs with h
  · rw [add_comm, Int.floor_add_int]
    norm_num
  · have : -(z : ℚ) + 1 / 2 = 1 / 2 + (-z : ℤ) := by push_cast; ring
    rw [this, Int.floor_add_int]
    norm_num

theorem round2_twoDp (q : ℚ) : twoDp (round2 q) :=
  ⟨roundHalfAway (q * 100), rfl⟩

theorem round2_eq_self {q : ℚ} (h : twoDp q) : round2 q = q := by
  obtain ⟨n, rfl⟩ := h
  unfold round2
  have h100 : ((n : ℚ) / 100) * 100 = (n : ℚ) := by
    field_simp
  rw [h100, roundHalfAway_intCast]

theorem twoDp_add {a b : ℚ} (ha : twoDp a) (hb : twoDp b) : twoDp (a + b) := by
  obtain ⟨n, rfl⟩ := ha
  obtain ⟨m, rfl⟩ := hb
  exact ⟨n + m, by push_cast; ring⟩

theorem round2_zero : round2 0 = 0 := by
  have : twoDp (0 : ℚ) := ⟨0, by norm_num⟩
  simpa using round2_eq_self this

/-! ## Invoice totals trigger (`update_invoice_totals`, migration 005) -/

/-- An `invoice_items` row, restricted to the columns the totals trigger
reads: `line_total NUMERIC(10,2)` and `vat_rate NUMERIC(3,2)`. -/
structure InvoiceItemRow where
  line_total : ℚ
  vat_rate : ℚ

/-- The derived columns of an `invoices` row. -/
structure InvoiceTotals where
  subtotal : ℚ
  vat_amount : ℚ
  total : ℚ
deriving DecidableEq

/-- The trigger body of `update_invoice_totals`:
`subtotal := COALESCE(SUM(line_total), 0)`,
`vat_amount := COALESCE(SUM(line_total * vat_rate), 0)`, then
`total := subtotal + vat_amount`, each stored into a `NUMERIC(10,2)`
column and hence rounded to 2 decimal places. -/
def update_invoice_totals (items : List InvoiceItemRow) : InvoiceTotals :=
  let st := round2 ((items.map (fun i => i.line_total)).sum)
  let vat := round2 ((items.map (fun i => i.line_total * i.vat_rate)).sum)
  { subtotal := st, vat_amount := vat, total := round2 (st + vat) }

/-- An invoice together with its line items. -/
structure InvoiceAggregate where
  items : List InvoiceItemRow
  totals : InvoiceTotals

/-- A single row change on `invoice_items`. -/
inductive ItemOp
  | insert (it : InvoiceItemRow)
  | update (idx : Nat) (it : InvoiceItemRow)
  | delete (idx : Nat)

def applyItemOp (items : List InvoiceItemRow) : ItemOp → List InvoiceItemRow
  | .insert it => items ++ [it]
  | .update idx it => items.set idx it
  | .delete idx => items.eraseIdx idx

/-- An item mutation as readers observe it: the row change together with
the `AFTER INSERT OR UPDATE OR DELETE` trigger `update_invoice_totals`,
which fires in the same transaction, before the change commits. -/
def applyItemChange (inv : InvoiceAggregate) (op : ItemOp) : InvoiceAggregate :=
  let items := applyItemOp inv.items op
  { items := items, totals := update_invoice_totals items }

/-- C3: after every insert, update, or delete of an invoice item — and
before the change is visible, since the trigger runs in the same
transaction — the parent invoice satisfies
`subtotal = round2 (Σ line_total)`,
`vat_amount = round2 (Σ line_total * vat_rate)`, and
`total = subtotal + vat_amount` (equal to its own 2-decimal rounding);
an invoice left with zero items has all three totals equal to 0. -/
theorem claim_C3_totals_invariant (inv : InvoiceAggregate) (op : ItemOp) :
    (applyItemChange inv op).totals.subtotal =
        round2 (((applyItemChange inv op).items.map
          (fun i => i.line_total)).sum) ∧
      (applyItemChange inv op).totals.vat_amount =
        round2 (((applyItemChange inv op).items.map
          (fun i => i.line_total * i.vat_rate)).sum) ∧
      (applyItemChange inv op).totals.total =
        (applyItemChange inv op).totals.subtotal +
          (applyItemChange inv op).totals.vat_amount ∧
      (applyItemChange inv op).totals.total =
        round2 ((applyItemChange inv op).totals.subtotal +
          (applyItemChange inv op).totals.vat_amount) ∧
      ((applyItemChange inv op).items = [] →
        (applyItemChange inv op).totals = ⟨0, 0, 0⟩) := by
  refine ⟨rfl, rfl, ?_, rfl, ?_⟩
  · exact round2_eq_self (twoDp_add (round2_twoDp _) (round2_twoDp _))
  · intro h
    show update_invoice_totals (applyItemOp inv.items op) = _
    rw [show applyItemOp inv.items op = ((applyItemChange inv op).items) from rfl, h]
    unfold update_invoice_totals
    simp [round2_zero]

theorem claim_C3_witness :
    (applyItemChange ⟨[⟨100, 19 / 100⟩], ⟨100, 19, 119⟩⟩
        (.delete 0)).totals = ⟨0, 0, 0⟩ :=
  (claim_C3_totals_invariant ⟨[⟨100, 19 / 100⟩], ⟨100, 19, 119⟩⟩
    (.delete 0)).2.2.2.2 rfl

/-! ## Server action `createInvoiceAction` and its validation -/

/-- The fields of `InvoiceCreate` that `validateInvoiceData` inspects.
`customer_id` comes from `Number(formData.get('customer_id') || 0)`, so a
missing selection arrives as 0 (JS falsy). -/
structure InvoiceCreateData where
  customer_id : Nat
  subtotal : ℚ
  vat_amount : ℚ
  total : ℚ

def customerRequiredMsg : String := "Ein Kunde muss ausgewählt werden."

def negativeAmountsMsg : String := "Finanzbeträge dürfen nicht negativ sein."

def totalZeroMsg : String := "Die Gesamtsumme darf nicht 0 sein."

def totalMismatchMsg : String :=
  "Gesamtsumme muss Summe aus Zwischensumme und Mehrwertsteuer entsprechen."

/-- `validateInvoiceData` from the invoice server action: returns the
first failing check's message, or `none` when the data is valid.
`Number((subtotal + vat_amount).toFixed(2))` and
`Number(total.toFixed(2))` are modelled as `round2`. -/
def validateInvoiceData (invoice : InvoiceCreateData) : Option String :=
  if invoice.customer_id = 0 then some customerRequiredMsg
  else if invoice.subtotal < 0 ∨ invoice.vat_amount < 0 ∨ invoice.total < 0 then
    some negativeAmountsMsg
  else if invoice.total = 0 then some totalZeroMsg
  else if 1 / 100 <
      |round2 (invoice.subtotal + invoice.vat_amount) - round2 invoice.total| then
    some totalMismatchMsg
  else none

/-- `createInvoiceAction` after `extractInvoiceData`: on a validation
error it returns the error without reaching `api.invoices.create`; the
boolean records whether the backend create call was made. -/
def createInvoiceAction (invoice : InvoiceCreateData) : Option String × Bool :=
  match validateInvoiceData invoice with
  | some err => (some err, false)
  | none => (none, true)

/-- C5: `createInvoiceAction` validates before any write — a negative
subtotal, vat_amount, or total is rejected; a supplied total differing
from `subtotal + vat_amount` by more than 0.01 (both sides rounded to 2
decimals) is rejected, with the total-mismatch error whenever no earlier
check (customer missing, negative amount, zero total) already fired; and
every rejection returns before the backend create call, so no write is
performed. -/
theorem claim_C5_validate_before_write (inv : InvoiceCreateData) :
    ((inv.subtotal < 0 ∨ inv.vat_amount < 0 ∨ inv.total < 0) →
      (validateInvoiceData inv).isSome) ∧
    (1 / 100 < |round2 (inv.subtotal + inv.vat_amount) - round2 inv.total| →
      (validateInvoiceData inv).isSome) ∧
    (inv.customer_id ≠ 0 →
      ¬(inv.subtotal < 0 ∨ inv.vat_amount < 0 ∨ inv.total < 0) →
      inv.total ≠ 0 →
      1 / 100 < |round2 (inv.subtotal + inv.vat_amount) - round2 inv.total| →
      validateInvoiceData inv = some totalMismatchMsg) ∧
    (∀ e, validateInvoiceData inv = some e →
      createInvoiceAction inv = (some e, false)) := by
  refine ⟨?_, ?_, ?_, ?_⟩
  · intro h
    unfold validateInvoiceData
    split_ifs <;> simp_all
  · intro h
    unfold validateInvoiceData
    split_ifs <;> simp_all
  · intro h1 h2 h3 h4
    unfold validateInvoiceData
    split_ifs <;> simp_all
  · intro e he
    unfold createInvoiceAction
    rw [he]

theorem claim_C5_witness :
    validateInvoiceData ⟨1, 100, 19, 200⟩ = some totalMismatchMsg ∧
      createInvoiceAction ⟨1, 100, 19, 200⟩ = (some totalMismatchMsg, false) ∧
      (validateInvoiceData ⟨1, -5, 0, 1⟩).isSome := by
  have hm : 1 / 100 <
      |round2 ((100 : ℚ) + 19) - round2 ((200 : ℚ))| := by
    have e1 : ((100 : ℚ) + 19) = 119 := by norm_num
    have h1 : round2 ((100 : ℚ) + 19) = 119 := by
      rw [e1]
      exact round2_eq_self ⟨11900, by norm_num⟩
    have h2 : round2 ((200 : ℚ)) = 200 := round2_eq_self ⟨20000, by norm_num⟩
    rw [h1, h2]
    norm_num
  have h := claim_C5_validate_before_write ⟨1, 100, 19, 200⟩
  have hmm := h.2.2.1 (by norm_num) (by norm_num) (by norm_num) hm
  refine ⟨hmm, h.2.2.2 totalMismatchMsg hmm, ?_⟩
  exact (claim_C5_validate_before_write ⟨1, -5, 0, 1⟩).1 (by norm_num)

/-! ## Invoice form total (`InvoiceForm.totalAmount`) -/

/-- The form's computed, read-only total field:
`(Number.parseFloat(subtotal) + Number.parseFloat(vatAmount)).toFixed(2)`,
modelled over exact decimal arithmetic. -/
def formTotalAmount (subtotal vatAmount : ℚ) : ℚ :=
  round2 (subtotal + vatAmount)

/-- C10: for any numeric subtotal and vat_amount, the form submits
`total = round2 (subtotal + vat_amount)`, which is exactly the value the
server-side validation recomputes, so a form submission is never rejected
by the total-mismatch check. -/
theorem claim_C10_form_total_matches (s v : ℚ) (cid : Nat) :
    formTotalAmount s v = round2 (s + v) ∧
      validateInvoiceData ⟨cid, s, v, formTotalAmount s v⟩ ≠
        some totalMismatchMsg := by
  refine ⟨rfl, ?_⟩
  have hidem : round2 (formTotalAmount s v) = round2 (s + v) :=
    round2_eq_self (round2_twoDp (s + v))
  have hzero : ¬(1 / 100 <
      |round2 (s + v) - round2 (formTotalAmount s v)|) := by
    rw [hidem]
    simp
  unfold validateInvoiceData
  split_ifs with h1 h2 h3
  · decide
  · decide
  · decide
  · simp

theorem claim_C10_witness :
    validateInvoiceData ⟨1, 100, 19, formTotalAmount 100 19⟩ ≠
      some totalMismatchMsg :=
  (claim_C10_form_total_matches 100 19 1).2

/-! ## Typed update payload (`InvoiceUpdate` in `api-client.ts`)

`InvoiceUpdate = Partial<InvoiceBase>`: the update payload carries only
the `InvoiceBase` fields. `invoice_number`, `subtotal`, `vat_amount`,
`total`, `id`, `created_at` live only on the full `Invoice` type and
cannot appear in an update. -/

/-- The code's `InvoiceStatus` union type. -/
inductive InvoiceStatus
  | draft
  | sent
  | paid
  | partially_paid
  | insurance_pending
  | cancelled
deriving DecidableEq

/-- A stored `Invoice` row (`Invoice extends InvoiceBase` plus the
server-assigned fields); opaque JSON blobs are kept as strings. -/
structure InvoiceRecord where
  id : Nat
  organization_id : Option Nat
  customer_id : Nat
  invoice_number : String
  invoice_date : Option String
  due_date : Option String
  prescription_snapshot : Option String
  insurance_provider : Option String
  insurance_claim_number : Option String
  insurance_coverage_amount : Option ℚ
  patient_copay_amount : Option ℚ
  status : Option InvoiceStatus
  payment_method : Option String
  notes : Option String
  subtotal : ℚ
  vat_amount : ℚ
  total : ℚ
  created_at : String
  updated_at : String

/-- `InvoiceUpdate = Partial<InvoiceBase>`: every `InvoiceBase` field,
optional. -/
structure InvoiceUpdate where
  organization_id : Option Nat := none
  customer_id : Option Nat := none
  invoice_date : Option String := none
  due_date : Option String := none
  prescription_snapshot : Option String := none
  insurance_provider : Option String := none
  insurance_claim_number : Option String := none
  insurance_coverage_amount : Option ℚ := none
  patient_copay_amount : Option ℚ := none
  status : Option InvoiceStatus := none
  payment_method : Option String := none
  notes : Option String := none

/-- Applying an `InvoiceUpdate` payload to a stored invoice: each field
present in the payload replaces the stored one; everything outside
`InvoiceBase` is untouched, since the payload has no such field. -/
def applyInvoiceUpdate (inv : InvoiceRecord) (u : InvoiceUpdate) :
    InvoiceRecord :=
  { inv with
    organization_id := (u.organization_id.map some).getD inv.organization_id
    customer_id := u.customer_id.getD inv.customer_id
    invoice_date := (u.invoice_date.map some).getD inv.invoice_date
    due_date := (u.due_date.map some).getD inv.due_date
    prescription_snapshot :=
      (u.prescription_snapshot.map some).getD inv.prescription_snapshot
    insurance_provider :=
      (u.insurance_provider.map some).getD inv.insurance_provider
    insurance_claim_number :=
      (u.insurance_claim_number.map some).getD inv.insurance_claim_number
    insurance_coverage_amount :=
      (u.insurance_coverage_amount.map some).getD inv.insurance_coverage_amount
    patient_copay_amount :=
      (u.patient_copay_amount.map some).getD inv.patient_copay_amount
    status := (u.status.map some).getD inv.status
    payment_method := (u.payment_method.map some).getD inv.payment_method
    notes := (u.notes.map some).getD inv.notes }

/-- The soft-delete payload: a status-only update marking the invoice
cancelled. -/
def softDeleteUpdate : InvoiceUpdate :=
  { status := some .cancelled }

/-- C7: no update operation can change an assigned invoice_number — the
`InvoiceUpdate` payload type has no such field, so every update (the
soft-delete status update included) leaves it unchanged — and the
allocator never reissues a number for a key: successive allocations
return pairwise-distinct values. -/
theorem claim_C7_invoice_number_immutable :
    (∀ (inv : InvoiceRecord) (u : InvoiceUpdate),
      (applyInvoiceUpdate inv u).invoice_number = inv.invoice_number ∧
        (applyInvoiceUpdate inv u).id = inv.id) ∧
    (∀ inv : InvoiceRecord,
      (applyInvoiceUpdate inv softDeleteUpdate).invoice_number =
        inv.invoice_number ∧
        (applyInvoiceUpdate inv softDeleteUpdate).status = some .cancelled) ∧
    (∀ (t : SeqTable) (k : SeqKey) (n : Nat),
      ((allocResults t k n).1).Nodup) := by
  refine ⟨fun inv u => ⟨rfl, rfl⟩, fun inv => ⟨rfl, rfl⟩, fun t k n => ?_⟩
  cases h : t k with
  | none => rw [allocResults_none k n t h]; exact List.nodup_range' _ _
  | some v => rw [(allocResults_some k n t v h).1]; exact List.nodup_range' _ _

/-! ## Mutation Gateway (modelled from the spec)

The gateway that enforces the status state machine and the
customer-existence check is the FastAPI backend, which is not part of the
repository sources (the frontend `invoiceApi.update` only forwards a
PUT). The two operations below are therefore modelled from the spec. -/

/-- The spec's invoice state space (§4 state machine); `opened` models the
spec's `open` state (a Lean keyword), and `deleted` its
`cancelled`/`deleted` terminal state. -/
inductive SpecStatus
  | draft
  | opened
  | paid
  | insurance_pending
  | partially_paid
  | deleted
deriving DecidableEq

/-- An invoice as the spec's Mutation Gateway sees it. -/
structure SpecInvoice where
  id : Nat
  invoice_number : String
  status : SpecStatus
deriving DecidableEq

/-- The spec's error kinds (§7). -/
inductive GatewayError
  | NotFound
  | ValidationError
  | TotalMismatch
  | InvalidTransition
  | AllocationFailed
  | StorageUnavailable
deriving DecidableEq

/-- The spec's allowed transitions:
`open → paid`, `open → deleted`, `paid → deleted`. -/
def allowedTransition : SpecStatus → SpecStatus → Bool
  | .opened, .paid => true
  | .opened, .deleted => true
  | .paid, .deleted => true
  | _, _ => false

/-- Modelled from the spec: `updateInvoiceStatus(invoice_id, new_status)`
(§4.3) is not implemented under the repository sources; per the spec it
"enforces the state machine below; rejects disallowed transitions with a
`InvalidTransition` error", leaving the invoice unchanged. -/
def updateInvoiceStatus (inv : SpecInvoice) (newStatus : SpecStatus) :
    SpecInvoice × Option GatewayError :=
  if allowedTransition inv.status newStatus then
    ({ inv with status := newStatus }, none)
  else (inv, some .InvalidTransition)

/-- C6: `updateInvoiceStatus` permits exactly `open → paid`,
`open → deleted`, `paid → deleted`; every other requested transition —
`deleted → anything` and `paid → open` in particular — fails with
`InvalidTransition` and leaves the invoice unchanged. -/
theorem claim_C6_status_transitions (inv : SpecInvoice) (s : SpecStatus) :
    (allowedTransition inv.status s = true ↔
      ((inv.status = .opened ∧ s = .paid) ∨
        (inv.status = .opened ∧ s = .deleted) ∨
        (inv.status = .paid ∧ s = .deleted))) ∧
    (allowedTransition inv.status s = true →
      updateInvoiceStatus inv s = ({ inv with status := s }, none)) ∧
    (allowedTransition inv.status s = false →
      updateInvoiceStatus inv s = (inv, some .InvalidTransition)) ∧
    (inv.status = .deleted →
      updateInvoiceStatus inv s = (inv, some .InvalidTransition)) ∧
    (inv.status = .paid → s = .opened →
      updateInvoiceStatus inv s = (inv, some .InvalidTransition)) := by
  obtain ⟨i, num, st⟩ := inv
  cases st <;> cases s <;>
    simp [allowedTransition, updateInvoiceStatus]

theorem claim_C6_witness :
    updateInvoiceStatus ⟨5, "2025-000005", .deleted⟩ .opened =
      (⟨5, "2025-000005", .deleted⟩, some .InvalidTransition) ∧
      updateInvoiceStatus ⟨6, "2025-000006", .paid⟩ .opened =
        (⟨6, "2025-000006", .paid⟩, some .InvalidTransition) := by
  constructor
  · exact (claim_C6_status_transitions ⟨5, "2025-000005", .deleted⟩
      .opened).2.2.2.1 rfl
  · exact (claim_C6_status_transitions ⟨6, "2025-000006", .paid⟩
      .opened).2.2.2.2 rfl rfl

/-- A `customers` row: its id and owning organization. -/
structure CustomerRow where
  id : Nat
  organization_id : Nat
deriving DecidableEq

/-- The state the gateway reads and writes. -/
structure GatewayDb where
  customers : List CustomerRow
  invoices : List SpecInvoice
deriving DecidableEq

/-- Whether `customer_id` references an existing customer of the given
organization. -/
def customerBelongs (db : GatewayDb) (org cid : Nat) : Bool :=
  db.customers.any (fun c => c.id == cid && c.organization_id == org)

/-- Modelled from the spec: the backend `createInvoice` handler is not
under the repository sources; per the spec (§4.3, §7) it "validates
customer_id exists and belongs to organization_id" and on failure
surfaces `NotFound` "to caller, no partial write". The written invoice
row is abstracted to `newInv`. -/
def gatewayCreateInvoice (db : GatewayDb) (org cid : Nat)
    (newInv : SpecInvoice) : GatewayDb × Option GatewayError :=
  if customerBelongs db org cid then
    ({ db with invoices := db.invoices ++ [newInv] }, none)
  else (db, some .NotFound)

/-- C9: when `customer_id` does not reference an existing customer of the
given organization, `createInvoice` fails with `NotFound` and performs no
write: the database state is returned unchanged. -/
theorem claim_C9_customer_not_found (db : GatewayDb) (org cid : Nat)
    (newInv : SpecInvoice) :
    (customerBelongs db org cid = false ↔
      ∀ c ∈ db.customers, ¬(c.id = cid ∧ c.organization_id = org)) ∧
    (customerBelongs db org cid = false →
      gatewayCreateInvoice db org cid newInv = (db, some .NotFound)) := by
  constructor
  · unfold customerBelongs
    rw [← Bool.not_eq_true, List.any_eq_true]
    push_neg
    constructor
    · intro h c hc
      have := h c hc
      simpa using this
    · intro h c hc
      have := h c hc
      simpa using this
  · intro h
    unfold gatewayCreateInvoice
    rw [h]
    simp

theorem claim_C9_witness :
    gatewayCreateInvoice ⟨[⟨7, 1⟩], []⟩ 2 7 ⟨1, "2025-000001", .opened⟩ =
      (⟨[⟨7, 1⟩], []⟩, some .NotFound) :=
  (claim_C9_customer_not_found ⟨[⟨7, 1⟩], []⟩ 2 7
    ⟨1, "2025-000001", .opened⟩).2 (by decide)

/-! ## Concurrent allocation (interleavings of `get_next_invoice_number`)

Statement-level interleaving semantics for the allocator on a single
`(organization_id, year)` row. Each caller runs at most two atomic
statements: the `UPDATE … RETURNING` (when the row exists it locks,
increments, and reads back as one atomically visible step; when the row
is absent it matches nothing), and — only after a missed `UPDATE` — the
`INSERT`, which raises a primary-key uniqueness violation if another
caller inserted the row in the meantime (the read-committed behaviour of
the `UPDATE`-then-`INSERT` upsert in the migration). -/

/-- Where one caller of the allocator stands. -/
inductive CallerState
  | start
  | missed
  | ok (n : Nat)
  | failed
deriving DecidableEq

/-- The shared counter row (for one fixed key) and every caller's state. -/
structure ConcState where
  row : Option Nat
  callers : List CallerState
deriving DecidableEq

/-- Run one atomic statement of caller `i`; a no-op when `i` is out of
range or the caller has already finished. -/
def step (s : ConcState) (i : Nat) : ConcState :=
  match s.callers.get? i with
  | none => s
  | some .start =>
    match s.row with
    | some n => ⟨some (n + 1), s.callers.set i (.ok (n + 1))⟩
    | none => ⟨none, s.callers.set i .missed⟩
  | some .missed =>
    match s.row with
    | none => ⟨some 1, s.callers.set i (.ok 1)⟩
    | some m => ⟨some m, s.callers.set i .failed⟩
  | some (.ok _) => s
  | some .failed => s

/-- Run a whole schedule (an arbitrary interleaving). -/
def run (s : ConcState) (sched : List Nat) : ConcState :=
  sched.foldl step s

/-- The number a finished caller received, if any. -/
def CallerState.result : CallerState → Option Nat
  | .ok n => some n
  | _ => none

/-- All numbers received so far, in caller order. -/
def results (s : ConcState) : List Nat :=
  s.callers.filterMap CallerState.result

def CallerState.isDone : CallerState → Bool
  | .ok _ => true
  | .failed => true
  | _ => false

/-- Every caller's allocation attempt has finished (with a number or with
an error). -/
def allDone (s : ConcState) : Bool :=
  s.callers.all CallerState.isDone

/-- `nCallers` simultaneous callers against a row holding `row`. -/
def initConc (row : Option Nat) (nCallers : Nat) : ConcState :=
  ⟨row, List.replicate nCallers .start⟩

/-- C2 fails on the code: with no counter row yet for the key, the
interleaving `UPDATE₀ (miss), UPDATE₁ (miss), INSERT₀ (ok), INSERT₁
(unique violation)` of two simultaneous callers completes with only one
caller receiving a number — the other aborts — so not all N callers
receive distinct consecutive integers. -/
theorem claim_C2_counterexample :
    allDone (run (initConc none 2) [0, 1, 0, 1]) = true ∧
      results (run (initConc none 2) [0, 1, 0, 1]) = [1] ∧
      (run (initConc none 2) [0, 1, 0, 1]).callers =
        [.ok 1, .failed] := by
  decide

/-- The interleaving invariant: the row holds the initial value plus one
per handed-out number, the handed-out numbers are exactly the next ones,
and no caller has missed the row or failed. -/
def ConcInv (k : Nat) (s : ConcState) : Prop :=
  s.row = some (k + (results s).length) ∧
    (results s).Perm
      ((List.range (results s).length).map (fun i => k + i + 1)) ∧
    ∀ c ∈ s.callers, c = .start ∨ ∃ n, c = .ok n

theorem results_set_start_ok :
    ∀ (l : List CallerState) (i : Nat) (v : Nat),
      l.get? i = some .start →
      ((l.set i (.ok v)).filterMap CallerState.result).Perm
        (v :: l.filterMap CallerState.result) := by
  intro l
  induction l with
  | nil => intro i v h; simp at h
  | cons c tl ih =>
    intro i v h
    cases i with
    | zero =>
      simp only [List.get?] at h
      cases h
      simp [List.set, List.filterMap_cons, CallerState.result]
    | succ j =>
      simp only [List.get?] at h
      have hperm := ih j v h
      cases hc : c.result with
      | none =>
        simpa [List.set, List.filterMap_cons, hc] using hperm
      | some w =>
        simp only [List.set, List.filterMap_cons, hc]
        exact (hperm.cons w).trans (List.Perm.swap v w _)

theorem step_length (s : ConcState) (i : Nat) :
    (step s i).callers.length = s.callers.length := by
  unfold step
  cases hget : s.callers.get? i with
  | none => rfl
  | some c =>
    cases c with
    | start => cases s.row <;> simp
    | missed => cases s.row <;> simp
    | ok n => rfl
    | failed => rfl

theorem step_preserves_inv (k : Nat) (s : ConcState) (i : Nat)
    (h : ConcInv k s) : ConcInv k (step s i) := by
  obtain ⟨hrow, hperm, hok⟩ := h
  cases hget : s.callers.get? i with
  | none =>
    have hstep : step s i = s := by
      unfold step; rw [hget]
    rw [hstep]
    exact ⟨hrow, hperm, hok⟩
  | some c =>
    have hmem : c ∈ s.callers := List.get?_mem hget
    rcases hok c hmem with hc | ⟨n, hc⟩
    · subst hc
      have hstep : step s i =
          ⟨some (k + (results s).length + 1),
            s.callers.set i (.ok (k + (results s).length + 1))⟩ := by
        unfold step; rw [hget, hrow]
      rw [hstep]
      have hres := results_set_start_ok s.callers i
        (k + (results s).length + 1) hget
      have hlen : ((s.callers.set i
          (.ok (k + (results s).length + 1))).filterMap
            CallerState.result).length = (results s).length + 1 :=
        hres.length_eq
      refine ⟨?_, ?_, ?_⟩
      · show some (k + (results s).length + 1) =
          some (k + ((s.callers.set i
            (.ok (k + (results s).length + 1))).filterMap
              CallerState.result).length)
        rw [hlen, Nat.add_assoc]
      · show ((s.callers.set i
            (.ok (k + (results s).length + 1))).filterMap
              CallerState.result).Perm
            ((List.range ((s.callers.set i
              (.ok (k + (results s).length + 1))).filterMap
                CallerState.result).length).map (fun j => k + j + 1))
        rw [hlen]
        refine hres.trans ?_
        have hcons : ((k + (results s).length + 1) :: results s).Perm
            ((k + (results s).length + 1) ::
              (List.range (results s).length).map (fun j => k + j + 1)) :=
          hperm.cons _
        refine hcons.trans ?_
        rw [List.range_succ, List.map_append]
        exact (List.perm_append_singleton _ _).symm
      · intro c2 hc2
        rcases List.mem_or_eq_of_mem_set hc2 with hmem2 | rfl
        · exact hok c2 hmem2
        · exact Or.inr ⟨_, rfl⟩
    · subst hc
      have hstep : step s i = s := by
        unfold step; rw [hget]
      rw [hstep]
      exact ⟨hrow, hperm, hok⟩

theorem run_preserves_inv (k : Nat) (sched : List Nat) :
    ∀ s : ConcState, ConcInv k s → ConcInv k (run s sched) := by
  induction sched with
  | nil => intro s h; exact h
  | cons i rest ih =>
    intro s h
    exact ih (step s i) (step_preserves_inv k s i h)

theorem run_length (sched : List Nat) :
    ∀ s : ConcState, (run s sched).callers.length = s.callers.length := by
  induction sched with
  | nil => intro s; rfl
  | cons i rest ih =>
    intro s
    rw [show run s (i :: rest) = run (step s i) rest from rfl, ih,
      step_length]

theorem initConc_inv (k nCallers : Nat) :
    ConcInv k (initConc (some k) nCallers) := by
  have hres : results (initConc (some k) nCallers) = [] := by
    unfold results initConc
    refine List.filterMap_eq_nil_iff.mpr ?_
    intro c hc
    rw [List.eq_of_mem_replicate hc]
    rfl
  refine ⟨?_, ?_, ?_⟩
  · rw [hres]; rfl
  · rw [hres]; simp
  · intro c hc
    exact Or.inl (List.eq_of_mem_replicate hc)

theorem results_length_of_allDone :
    ∀ l : List CallerState,
      (∀ c ∈ l, c = .start ∨ ∃ n, c = .ok n) →
      l.all CallerState.isDone = true →
      (l.filterMap CallerState.result).length = l.length := by
  intro l
  induction l with
  | nil => intro _ _; rfl
  | cons c tl ih =>
    intro hok hdone
    rw [List.all_cons, Bool.and_eq_true] at hdone
    rcases hok c (List.mem_cons_self c tl) with hc | ⟨n, hc⟩
    · rw [hc] at hdone
      exact absurd hdone.1 (by decide)
    · subst hc
      simp only [List.filterMap_cons, CallerState.result, List.length_cons]
      rw [ih (fun c2 hc2 => hok c2 (List.mem_cons_of_mem _ hc2)) hdone.2]

/-- C2 amended: under N simultaneous allocate calls for a
`(organization_id, year)` whose counter row already exists with
`last_number = k`, every interleaving in which all callers complete hands
out exactly the integers `k+1 … k+N`, pairwise distinct and gapless,
regardless of the interleaving; on the very first allocation of a key
(no counter row yet) an interleaving can instead abort one caller with a
primary-key violation, as the counterexample shows. -/
theorem claim_C2_concurrent_allocation (k nCallers : Nat)
    (sched : List Nat)
    (hdone : allDone (run (initConc (some k) nCallers) sched) = true) :
    (results (run (initConc (some k) nCallers) sched)).Perm
      ((List.range nCallers).map (fun i => k + i + 1)) := by
  have hinv := run_preserves_inv k sched _ (initConc_inv k nCallers)
  have hlen : (run (initConc (some k) nCallers) sched).callers.length =
      nCallers := by
    rw [run_length]
    simp [initConc]
  have hreslen :
      (results (run (initConc (some k) nCallers) sched)).length =
        nCallers := by
    unfold results
    rw [results_length_of_allDone _ hinv.2.2 hdone, hlen]
  have hperm := hinv.2.1
  rw [hreslen] at hperm
  exact hperm

theorem claim_C2_concurrent_witness :
    (results (run (initConc (some 0) 2) [0, 1])).Perm
        ((List.range 2).map (fun i => 0 + i + 1)) ∧
      results (run (initConc (some 0) 2) [0, 1]) = [1, 2] :=
  ⟨claim_C2_concurrent_allocation 0 2 [0, 1] (by decide), by decide⟩

end Visual
